import Mathlib

/-!
Shallow embedding of the COVID-19 India analysis pipeline
(`covid_analysis.py`): the loader/cleaner `load_data`, the aggregator
`preprocess_data`, and the summary metrics computed in `main`.

Raw tabular rows are modelled as records whose `Date` and counter fields
carry the result of the external parsers (`pd.to_datetime`,
`pd.to_numeric` with errors set to coerce — an unparsable or missing value is
`none`).  Dates are integers (ordinal days), counters are integers,
rolling means are rationals.
-/

namespace Covid

/-- Error raised when the `Date` column cannot be parsed
(`pd.to_datetime` raises on an unparsable date; the spec names this
`MalformedDateError`). -/
inductive MalformedDateError where
  | mk : MalformedDateError
deriving DecidableEq, Repr

deriving instance DecidableEq for Except

/-- One raw CSV row.  `date` is the result of parsing the `Date` string
(`none` when unparsable); `confirmed`, `deaths`, `cured` are the results
of numeric coercion of the counter fields (`none` when the field is
missing or non-numeric). -/
structure RawRow where
  date : Option ℤ
  region : String
  confirmed : Option ℤ
  deaths : Option ℤ
  cured : Option ℤ
deriving DecidableEq, Repr

/-- One cleaned row of the table returned by `load_data`. -/
structure CleanRow where
  date : ℤ
  region : String
  confirmed : ℤ
  deaths : ℤ
  cured : ℤ
deriving DecidableEq, Repr

/-- Cleaning of one counter field, lines 25–32 of the source:
`fillna(0)` then `pd.to_numeric(..., errors = coerce).fillna(0).astype(int)`.
A missing or non-numeric value (modelled as `none`) becomes `0`; a numeric
value is kept as is (no clamping of negatives). -/
def cleanCounter (o : Option ℤ) : ℤ := o.getD 0

/-- Whitespace stripping of a region label, line 22 of the source
(`str.strip()`): drop leading and trailing whitespace characters. -/
def stripLabel (s : String) : String :=
  ⟨(((s.data.dropWhile Char.isWhitespace).reverse).dropWhile Char.isWhitespace).reverse⟩

/-- Per-row cleaning: strip the region label (line 22) and clean the
three counters (lines 25–32).  Only applied once every date has parsed. -/
def cleanRow (r : RawRow) : CleanRow :=
  { date := r.date.getD 0
    region := stripLabel r.region
    confirmed := cleanCounter r.confirmed
    deaths := cleanCounter r.deaths
    cured := cleanCounter r.cured }

/-- De-duplication key, line 35: `subset = [Date, State/UnionTerritory]`. -/
def key (r : CleanRow) : ℤ × String := (r.date, r.region)

/-- Keep the first row for each key, skipping keys already in `seen`. -/
def dedupKeepFirst : List CleanRow → List (ℤ × String) → List CleanRow
  | [], _ => []
  | r :: rs, seen =>
    if key r ∈ seen then dedupKeepFirst rs seen
    else r :: dedupKeepFirst rs (key r :: seen)

/-- Line 35: `drop_duplicates(subset = [Date, State/UnionTerritory],
keep = last)` — for each (date, region) key the last row in input order
survives. -/
def dedupKeepLast (rows : List CleanRow) : List CleanRow :=
  (dedupKeepFirst rows.reverse []).reverse

/-- Line 38: `sort_values(Date)` — sort the cleaned rows by date. -/
def sortByDate (rows : List CleanRow) : List CleanRow :=
  rows.insertionSort (fun a b => a.date ≤ b.date)

/-- Lines 14–40, `load_data`: parse dates (raising `MalformedDateError`
if any is unparsable), trim regions, clean counters, de-duplicate keeping
the last row per (date, region), and sort by date. -/
def load_data (raw : List RawRow) : Except MalformedDateError (List CleanRow) :=
  if raw.all (fun r => r.date.isSome) then
    Except.ok (sortByDate (dedupKeepLast (raw.map cleanRow)))
  else
    Except.error MalformedDateError.mk

/-- One row of the derived series returned by `preprocess_data`:
cumulative totals for a date plus daily deltas and their 7-row trailing
moving averages (`none` before the seventh row, matching pandas NaN). -/
structure SeriesRow where
  date : ℤ
  confirmed : ℤ
  deaths : ℤ
  cured : ℤ
  newCases : ℤ
  newDeaths : ℤ
  newRecoveries : ℤ
  newCasesMA : Option ℚ
  newDeathsMA : Option ℚ
  newRecoveriesMA : Option ℚ
deriving DecidableEq, Repr

/-- Lines 44–53: keep every row for the `All India` selection, otherwise
keep the rows whose region label equals the selected state exactly. -/
def filteredRows (t : List CleanRow) (sel : String) : List CleanRow :=
  if sel = "All India" then t else t.filter (fun r => r.region = sel)

/-- Distinct dates of a table, ascending — the group keys produced by
`groupby(Date)` (pandas sorts group keys). -/
def distinctDates (rows : List CleanRow) : List ℤ :=
  List.insertionSort (· ≤ ·) (rows.map (fun r => r.date)).dedup

/-- Group key with the default used for out-of-range indexing. -/
structure AggRow where
  date : ℤ
  confirmed : ℤ
  deaths : ℤ
  cured : ℤ
deriving DecidableEq, Repr

/-- Lines 46–58: `groupby(Date).agg(sum).reset_index()` — one row per
distinct date, ascending, with the three counters summed over the rows
of that date. -/
def groupByDate (rows : List CleanRow) : List AggRow :=
  (distinctDates rows).map (fun d =>
    { date := d
      confirmed := ((rows.filter (fun r => r.date = d)).map (fun r => r.confirmed)).sum
      deaths := ((rows.filter (fun r => r.date = d)).map (fun r => r.deaths)).sum
      cured := ((rows.filter (fun r => r.date = d)).map (fun r => r.cured)).sum })

/-- Lines 61–68 applied to one cumulative column:
`diff().fillna(0)` (first entry has no predecessor and becomes `0`)
followed by `clip(lower = 0)` (negative deltas floored to zero). -/
def diffFillClip (xs : List ℤ) : List ℤ :=
  (List.range xs.length).map (fun i =>
    if i = 0 then 0 else max 0 (xs.getD i 0 - xs.getD (i - 1) 0))

/-- Lines 71–73 applied to one delta column at row `i`:
`rolling(window = 7).mean()` — `none` for the first six rows (pandas
NaN, `min_periods` defaults to the window size), afterwards the
arithmetic mean of the seven entries at row indices `i - 6 … i`. -/
def rollingMean7 (xs : List ℤ) (i : ℕ) : Option ℚ :=
  if i < 6 then none
  else some (((((List.range 7).map (fun k => xs.getD (i - 6 + k) 0)).sum : ℤ) : ℚ) / 7)

/-- Lines 43–75, `preprocess_data`: filter by the selected state, group
by date summing the counters, derive clipped daily deltas and their
7-row moving averages. -/
def preprocess_data (t : List CleanRow) (sel : String) : List SeriesRow :=
  let g := groupByDate (filteredRows t sel)
  let conf := g.map (fun r => r.confirmed)
  let dea := g.map (fun r => r.deaths)
  let cur := g.map (fun r => r.cured)
  let nc := diffFillClip conf
  let nd := diffFillClip dea
  let nr := diffFillClip cur
  (List.range g.length).map (fun i =>
    { date := (g.getD i ⟨0, 0, 0, 0⟩).date
      confirmed := conf.getD i 0
      deaths := dea.getD i 0
      cured := cur.getD i 0
      newCases := nc.getD i 0
      newDeaths := nd.getD i 0
      newRecoveries := nr.getD i 0
      newCasesMA := rollingMean7 nc i
      newDeathsMA := rollingMean7 nd i
      newRecoveriesMA := rollingMean7 nr i })

/-- Maximum of a column, pandas `Series.max()`: `none` on an empty
series (pandas returns NaN), otherwise the greatest entry. -/
def seriesMax : List ℤ → Option ℤ
  | [] => none
  | x :: xs => some (xs.foldl max x)

/-- Line 167: `state_data[Confirmed].max()`. -/
def totalCases (s : List SeriesRow) : Option ℤ :=
  seriesMax (s.map (fun r => r.confirmed))

/-- Line 169: `state_data[Deaths].max()`. -/
def totalDeaths (s : List SeriesRow) : Option ℤ :=
  seriesMax (s.map (fun r => r.deaths))

/-- Line 171: `state_data[Cured].max()`. -/
def totalRecoveries (s : List SeriesRow) : Option ℤ :=
  seriesMax (s.map (fun r => r.cured))

/-- Line 173: `Confirmed.max() - Cured.max() - Deaths.max()` (NaN as
soon as one column is empty, modelled by `none`). -/
def activeCases (s : List SeriesRow) : Option ℤ :=
  match totalCases s, totalRecoveries s, totalDeaths s with
  | some c, some r, some d => some (c - r - d)
  | _, _, _ => none

/-- Line 181: `state_data[state_data[Date] == state_data[Date].max()]` —
the rows of the derived series whose date is the maximum date. -/
def latestRows (s : List SeriesRow) : List SeriesRow :=
  s.filter (fun r => seriesMax (s.map (fun x => x.date)) = some r.date)

/-- State of the two data frames across `preprocess_data` (lines 43–75):
the input `cases_df` and the derived `state_data`.  In the source,
`groupby(...).agg(...).reset_index()` returns a fresh frame and the
non-aggregated branch takes an explicit `.copy()` before the
`state_data[...] = ...` column assignments, so those assignments write
only to `state_data` and the caller's `cases_df` is returned as it was. -/
structure FrameState where
  cases_df : List CleanRow
  state_data : List SeriesRow
deriving DecidableEq, Repr

/-- Explicit state-passing form of `preprocess_data`: the values of both
frames when the call returns. -/
def preprocess_data_frames (cases_df : List CleanRow) (sel : String) : FrameState :=
  { cases_df := cases_df
    state_data := preprocess_data cases_df sel }

/-! Concrete tables used to instantiate the verified properties. -/

/-- Two regions on two shared dates: region A has confirmed 10, 20 and
region B has confirmed 5, 15 (the aggregation example of the spec). -/
def exampleAB : List CleanRow :=
  [⟨0, "A", 10, 0, 0⟩, ⟨0, "B", 5, 0, 0⟩, ⟨1, "A", 20, 0, 0⟩, ⟨1, "B", 15, 0, 0⟩]

/-- A table whose cumulative confirmed column regresses from 10 to 5
(a downward source-data correction). -/
def exampleRegress : List CleanRow :=
  [⟨0, "A", 10, 0, 0⟩, ⟨1, "A", 5, 0, 0⟩]

/-- A table whose confirmed column accumulates the daily deltas
0, 1, …, 9 over ten consecutive dates (the rolling-average example of
the spec). -/
def exampleDeltas : List CleanRow :=
  [⟨0, "A", 0, 0, 0⟩, ⟨1, "A", 1, 0, 0⟩, ⟨2, "A", 3, 0, 0⟩, ⟨3, "A", 6, 0, 0⟩,
   ⟨4, "A", 10, 0, 0⟩, ⟨5, "A", 15, 0, 0⟩, ⟨6, "A", 21, 0, 0⟩, ⟨7, "A", 28, 0, 0⟩,
   ⟨8, "A", 36, 0, 0⟩, ⟨9, "A", 45, 0, 0⟩]

/-- Raw input whose Confirmed field holds the negative numeric value -5. -/
def exampleNegativeRaw : List RawRow :=
  [⟨some 0, "A", some (-5), some 0, some 0⟩]

/-- Raw input with two rows sharing the (date, region) key and different
counters. -/
def exampleDupRaw : List RawRow :=
  [⟨some 0, "A", some 1, some 2, some 3⟩, ⟨some 0, "A", some 4, some 5, some 6⟩]

/-- Raw input whose only date fails to parse. -/
def exampleBadDateRaw : List RawRow :=
  [⟨none, "A", some 1, some 1, some 1⟩]

/-! Structural lemmas about the derived series. -/

theorem length_preprocess (t : List CleanRow) (sel : String) :
    (preprocess_data t sel).length = (groupByDate (filteredRows t sel)).length := by
  simp [preprocess_data]

theorem map_date_preprocess (t : List CleanRow) (sel : String) :
    (preprocess_data t sel).map (fun r => r.date)
      = distinctDates (filteredRows t sel) := by
  have hg : (groupByDate (filteredRows t sel)).map (fun r => r.date)
      = distinctDates (filteredRows t sel) := by
    simp [groupByDate, List.map_map, Function.comp_def]
  rw [← hg]
  apply List.ext_getElem
  · simp [preprocess_data]
  · intro i h1 h2
    simp only [preprocess_data, List.getElem_map, List.getElem_range]
    rw [List.getD_eq_getElem _ _ (by simpa using h2)]

theorem map_confirmed_preprocess (t : List CleanRow) (sel : String) :
    (preprocess_data t sel).map (fun r => r.confirmed)
      = (groupByDate (filteredRows t sel)).map (fun r => r.confirmed) := by
  apply List.ext_getElem
  · simp [preprocess_data]
  · intro i h1 h2
    simp only [preprocess_data, List.getElem_map, List.getElem_range]
    rw [List.getD_eq_getElem _ _ (by simpa using h2)]
    simp [List.getElem_map]

theorem map_deaths_preprocess (t : List CleanRow) (sel : String) :
    (preprocess_data t sel).map (fun r => r.deaths)
      = (groupByDate (filteredRows t sel)).map (fun r => r.deaths) := by
  apply List.ext_getElem
  · simp [preprocess_data]
  · intro i h1 h2
    simp only [preprocess_data, List.getElem_map, List.getElem_range]
    rw [List.getD_eq_getElem _ _ (by simpa using h2)]
    simp [List.getElem_map]

theorem map_cured_preprocess (t : List CleanRow) (sel : String) :
    (preprocess_data t sel).map (fun r => r.cured)
      = (groupByDate (filteredRows t sel)).map (fun r => r.cured) := by
  apply List.ext_getElem
  · simp [preprocess_data]
  · intro i h1 h2
    simp only [preprocess_data, List.getElem_map, List.getElem_range]
    rw [List.getD_eq_getElem _ _ (by simpa using h2)]
    simp [List.getElem_map]

theorem map_newCases_preprocess (t : List CleanRow) (sel : String) :
    (preprocess_data t sel).map (fun r => r.newCases)
      = diffFillClip ((groupByDate (filteredRows t sel)).map (fun r => r.confirmed)) := by
  apply List.ext_getElem
  · simp [preprocess_data, diffFillClip]
  · intro i h1 h2
    simp only [preprocess_data, List.getElem_map, List.getElem_range]
    rw [List.getD_eq_getElem _ _ (by simpa using h2)]

theorem map_newDeaths_preprocess (t : List CleanRow) (sel : String) :
    (preprocess_data t sel).map (fun r => r.newDeaths)
      = diffFillClip ((groupByDate (filteredRows t sel)).map (fun r => r.deaths)) := by
  apply List.ext_getElem
  · simp [preprocess_data, diffFillClip]
  · intro i h1 h2
    simp only [preprocess_data, List.getElem_map, List.getElem_range]
    rw [List.getD_eq_getElem _ _ (by simpa using h2)]

theorem map_newRecoveries_preprocess (t : List CleanRow) (sel : String) :
    (preprocess_data t sel).map (fun r => r.newRecoveries)
      = diffFillClip ((groupByDate (filteredRows t sel)).map (fun r => r.cured)) := by
  apply List.ext_getElem
  · simp [preprocess_data, diffFillClip]
  · intro i h1 h2
    simp only [preprocess_data, List.getElem_map, List.getElem_range]
    rw [List.getD_eq_getElem _ _ (by simpa using h2)]

theorem getElem_preprocess (t : List CleanRow) (sel : String) (i : ℕ)
    (h : i < (preprocess_data t sel).length) :
    (preprocess_data t sel)[i] =
      { date := ((groupByDate (filteredRows t sel)).getD i ⟨0, 0, 0, 0⟩).date
        confirmed := ((groupByDate (filteredRows t sel)).map (fun r => r.confirmed)).getD i 0
        deaths := ((groupByDate (filteredRows t sel)).map (fun r => r.deaths)).getD i 0
        cured := ((groupByDate (filteredRows t sel)).map (fun r => r.cured)).getD i 0
        newCases := (diffFillClip ((groupByDate (filteredRows t sel)).map (fun r => r.confirmed))).getD i 0
        newDeaths := (diffFillClip ((groupByDate (filteredRows t sel)).map (fun r => r.deaths))).getD i 0
        newRecoveries := (diffFillClip ((groupByDate (filteredRows t sel)).map (fun r => r.cured))).getD i 0
        newCasesMA := rollingMean7 (diffFillClip ((groupByDate (filteredRows t sel)).map (fun r => r.confirmed))) i
        newDeathsMA := rollingMean7 (diffFillClip ((groupByDate (filteredRows t sel)).map (fun r => r.deaths))) i
        newRecoveriesMA := rollingMean7 (diffFillClip ((groupByDate (filteredRows t sel)).map (fun r => r.cured))) i } := by
  simp only [preprocess_data, List.getElem_map, List.getElem_range]

theorem sorted_distinctDates (rows : List CleanRow) :
    (distinctDates rows).Pairwise (· < ·) := by
  have hs : (distinctDates rows).Pairwise (· ≤ ·) :=
    List.sorted_insertionSort _ _
  have hn : (distinctDates rows).Nodup :=
    (List.perm_insertionSort _ _).symm.nodup (List.nodup_dedup _)
  exact List.Sorted.lt_of_le hs hn

theorem mem_distinctDates (rows : List CleanRow) (d : ℤ) :
    d ∈ distinctDates rows ↔ d ∈ rows.map (fun r => r.date) := by
  unfold distinctDates
  rw [(List.perm_insertionSort _ _).mem_iff, List.mem_dedup]

/-! Lemmas about `seriesMax` (pandas `Series.max()`). -/

theorem foldl_max_eq {m : ℤ} : ∀ (xs : List ℤ) (x : ℤ), (m = x ∨ m ∈ xs) →
    x ≤ m → (∀ a ∈ xs, a ≤ m) → xs.foldl max x = m := by
  intro xs
  induction xs with
  | nil =>
    intro x hm hx _
    rcases hm with h | h
    · simpa using h.symm
    · simp at h
  | cons y ys ih =>
    intro x hm hx hall
    have hy : y ≤ m := hall y (by simp)
    have hys : ∀ a ∈ ys, a ≤ m := fun a ha => hall a (by simp [ha])
    rw [List.foldl_cons]
    apply ih (max x y)
    · rcases hm with h | h
      · left
        subst h
        omega
      · rcases List.mem_cons.mp h with h | h
        · left
          subst h
          omega
        · right
          exact h
    · exact max_le hx hy
    · exact hys

theorem seriesMax_eq_some {l : List ℤ} {m : ℤ} (hm : m ∈ l)
    (hall : ∀ a ∈ l, a ≤ m) : seriesMax l = some m := by
  cases l with
  | nil => simp at hm
  | cons x xs =>
    show some (xs.foldl max x) = some m
    congr 1
    apply foldl_max_eq xs x
    · rcases List.mem_cons.mp hm with h | h
      · exact Or.inl h
      · exact Or.inr h
    · exact hall x (by simp)
    · exact fun a ha => hall a (by simp [ha])

/-- A list whose adjacent entries are non-decreasing is monotone in its
indices (stated with `getD` so no bound proofs are needed). -/
theorem getD_mono_of_adjacent {l : List ℤ}
    (h : ∀ i, i + 1 < l.length → l.getD i 0 ≤ l.getD (i + 1) 0) :
    ∀ i j, i ≤ j → j < l.length → l.getD i 0 ≤ l.getD j 0 := by
  intro i j hij hj
  induction j with
  | zero =>
    have : i = 0 := Nat.le_zero.mp hij
    subst this
    exact le_refl _
  | succ n ihn =>
    by_cases hcase : i = n + 1
    · subst hcase
      exact le_refl _
    · have hi : i ≤ n := by omega
      have hn : n < l.length := by omega
      exact le_trans (ihn hi hn) (h n hj)

theorem all_le_getLastD_of_adjacent {l : List ℤ}
    (h : ∀ i, i + 1 < l.length → l.getD i 0 ≤ l.getD (i + 1) 0) :
    ∀ a ∈ l, a ≤ l.getD (l.length - 1) 0 := by
  intro a ha
  obtain ⟨i, hi, rfl⟩ := List.getElem_of_mem ha
  rw [← List.getD_eq_getElem _ 0 hi]
  apply getD_mono_of_adjacent h
  · omega
  · omega

theorem seriesMax_of_adjacent {l : List ℤ} (hne : l ≠ [])
    (h : ∀ i, i + 1 < l.length → l.getD i 0 ≤ l.getD (i + 1) 0) :
    seriesMax l = some (l.getD (l.length - 1) 0) := by
  apply seriesMax_eq_some
  · have hlen : l.length - 1 < l.length := by
      cases l
      · simp at hne
      · simp
    rw [List.getD_eq_getElem _ 0 hlen]
    exact List.getElem_mem _
  · exact all_le_getLastD_of_adjacent h

/-! Lemmas about de-duplication and sorting in `load_data`. -/

theorem mem_of_mem_dedupKeepFirst :
    ∀ (l : List CleanRow) (seen : List (ℤ × String)) (r : CleanRow),
    r ∈ dedupKeepFirst l seen → r ∈ l := by
  intro l
  induction l with
  | nil =>
    intro seen r h
    simp [dedupKeepFirst] at h
  | cons x xs ih =>
    intro seen r h
    rw [dedupKeepFirst] at h
    by_cases hx : key x ∈ seen
    · rw [if_pos hx] at h
      exact List.mem_cons_of_mem _ (ih _ _ h)
    · rw [if_neg hx] at h
      rcases List.mem_cons.mp h with h | h
      · exact h ▸ List.mem_cons_self _ _
      · exact List.mem_cons_of_mem _ (ih _ _ h)

theorem mem_of_mem_dedupKeepLast {l : List CleanRow} {r : CleanRow}
    (h : r ∈ dedupKeepLast l) : r ∈ l := by
  unfold dedupKeepLast at h
  rw [List.mem_reverse] at h
  have := mem_of_mem_dedupKeepFirst _ _ _ h
  rwa [List.mem_reverse] at this

theorem mem_sortByDate {l : List CleanRow} {r : CleanRow} :
    r ∈ sortByDate l ↔ r ∈ l :=
  (List.perm_insertionSort _ _).mem_iff

theorem filter_dedupKeepFirst (k : ℤ × String) :
    ∀ (l : List CleanRow) (seen : List (ℤ × String)),
    (dedupKeepFirst l seen).filter (fun r => key r = k)
      = if k ∈ seen then [] else ((l.filter (fun r => key r = k)).head?).toList := by
  intro l
  induction l with
  | nil =>
    intro seen
    simp [dedupKeepFirst]
  | cons r rs ih =>
    intro seen
    rw [dedupKeepFirst]
    by_cases hr : key r ∈ seen
    · rw [if_pos hr, ih seen]
      by_cases hk : k ∈ seen
      · rw [if_pos hk, if_pos hk]
      · have hrk : ¬ (key r = k) := fun h => hk (h ▸ hr)
        rw [if_neg hk, if_neg hk, List.filter_cons, if_neg (by simpa using hrk)]
    · rw [if_neg hr]
      by_cases hk : key r = k
      · have hks : ¬ k ∈ seen := fun h => hr (hk ▸ h)
        rw [List.filter_cons, if_pos (by simpa using hk), ih (key r :: seen),
          if_pos (by simp [hk]), if_neg hks, List.filter_cons, if_pos (by simpa using hk)]
        simp
      · rw [List.filter_cons, if_neg (by simpa using hk), ih (key r :: seen)]
        by_cases hks : k ∈ seen
        · rw [if_pos (by simp [hks]), if_pos hks]
        · rw [if_neg (by simp [hks]; exact fun h => hk h.symm), if_neg hks, List.filter_cons,
            if_neg (by simpa using hk)]

theorem filter_dedupKeepLast (l : List CleanRow) (k : ℤ × String) :
    (dedupKeepLast l).filter (fun r => key r = k)
      = ((l.filter (fun r => key r = k)).getLast?).toList := by
  unfold dedupKeepLast
  rw [List.filter_reverse, filter_dedupKeepFirst, if_neg (List.not_mem_nil k),
    List.filter_reverse, List.head?_reverse]
  cases (l.filter (fun r => key r = k)).getLast? <;> simp

/-! Lemmas about the latest-date snapshot. -/

theorem seriesMax_of_pairwise_lt {l : List ℤ} (hne : l ≠ [])
    (hp : l.Pairwise (· < ·)) : seriesMax l = some (l.getLast hne) := by
  apply seriesMax_eq_some (List.getLast_mem hne)
  intro a ha
  obtain ⟨i, hi, rfl⟩ := List.getElem_of_mem ha
  rcases Nat.lt_or_ge i (l.length - 1) with h | h
  · have hlt := (List.pairwise_iff_getElem.mp hp) i (l.length - 1) hi (by omega) h
    rw [List.getLast_eq_getElem]
    exact le_of_lt hlt
  · have hieq : i = l.length - 1 := by omega
    subst hieq
    rw [List.getLast_eq_getElem]

theorem getLast_map_date {s : List SeriesRow} (hne : s ≠ [])
    (hne2 : s.map (fun r => r.date) ≠ []) :
    (s.map (fun r => r.date)).getLast hne2 = (s.getLast hne).date := by
  rw [List.getLast_eq_getElem, List.getLast_eq_getElem]
  simp

theorem filter_date_eq_getLast : ∀ (s : List SeriesRow) (hne : s ≠ []),
    (s.map (fun r => r.date)).Pairwise (· < ·) →
    s.filter (fun r => decide (r.date = (s.getLast hne).date)) = [s.getLast hne] := by
  intro s
  induction s with
  | nil =>
    intro hne
    simp at hne
  | cons x xs ih =>
    intro hne hp
    cases xs with
    | nil => simp
    | cons y ys =>
      have hne2 : y :: ys ≠ ([] : List SeriesRow) := by simp
      have hlast : (x :: y :: ys).getLast hne = (y :: ys).getLast hne2 :=
        List.getLast_cons hne2
      have hps : (x.date < y.date ∧ ∀ a ∈ ys, x.date < a.date) ∧
          (∀ a ∈ ys, y.date < a.date) ∧
          (ys.map (fun r => r.date)).Pairwise (· < ·) := by
        simpa using hp
      have hp2 : ((y :: ys).map (fun r => r.date)).Pairwise (· < ·) := by
        simp only [List.map_cons, List.pairwise_cons]
        constructor
        · intro b hb
          obtain ⟨a, ha, rfl⟩ := List.mem_map.mp hb
          exact hps.2.1 a ha
        · exact hps.2.2
      have hxlt : x.date < ((y :: ys).getLast hne2).date := by
        rcases List.mem_cons.mp (List.getLast_mem hne2) with h | h
        · rw [h]
          exact hps.1.1
        · exact hps.1.2 _ h
      rw [hlast, List.filter_cons, if_neg (by simp; omega)]
      exact ih hne2 hp2

theorem latestRows_eq_getLast {s : List SeriesRow} (hne : s ≠ [])
    (hp : (s.map (fun r => r.date)).Pairwise (· < ·)) :
    latestRows s = [s.getLast hne] := by
  have hne2 : s.map (fun r => r.date) ≠ [] := by
    simpa using hne
  unfold latestRows
  rw [List.filter_congr]
  · exact filter_date_eq_getLast s hne hp
  · intro a _
    rw [decide_eq_decide, seriesMax_of_pairwise_lt hne2 hp,
      getLast_map_date hne hne2]
    constructor
    · intro h
      exact (Option.some_inj.mp h).symm
    · intro h
      exact congrArg some h.symm

/-! Lemmas about the differencing and clipping step. -/

theorem length_diffFillClip (xs : List ℤ) : (diffFillClip xs).length = xs.length := by
  simp [diffFillClip]

theorem diffFillClip_getD (xs : List ℤ) (i : ℕ) (h : i < xs.length) :
    (diffFillClip xs).getD i 0
      = if i = 0 then 0 else max 0 (xs.getD i 0 - xs.getD (i - 1) 0) := by
  unfold diffFillClip
  rw [List.getD_eq_getElem _ _ (by simpa using h)]
  simp

theorem diffFillClip_getD_nonneg (xs : List ℤ) (i : ℕ) :
    0 ≤ (diffFillClip xs).getD i 0 := by
  by_cases h : i < xs.length
  · rw [diffFillClip_getD xs i h]
    by_cases h0 : i = 0
    · simp [h0]
    · simp [h0]
  · rw [List.getD_eq_default]
    rw [length_diffFillClip]
    omega

theorem length_groupByDate (rows : List CleanRow) :
    (groupByDate rows).length = (distinctDates rows).length := by
  simp [groupByDate]

theorem mem_groupByDate {rows : List CleanRow} {a : AggRow}
    (h : a ∈ groupByDate rows) :
    a.confirmed = ((rows.filter (fun r => r.date = a.date)).map (fun r => r.confirmed)).sum ∧
    a.deaths = ((rows.filter (fun r => r.date = a.date)).map (fun r => r.deaths)).sum ∧
    a.cured = ((rows.filter (fun r => r.date = a.date)).map (fun r => r.cured)).sum := by
  obtain ⟨d, hd, rfl⟩ := List.mem_map.mp h
  simp

theorem load_data_ok (raw : List RawRow) (t : List CleanRow)
    (h : load_data raw = Except.ok t) :
    t = sortByDate (dedupKeepLast (raw.map cleanRow)) := by
  unfold load_data at h
  by_cases hall : raw.all (fun r => r.date.isSome)
  · rw [if_pos hall] at h
    exact (Except.ok.inj h).symm
  · rw [if_neg hall] at h
    simp at h

theorem getD_map_newCasesMA (t : List CleanRow) (sel : String) (i : ℕ)
    (h : i < (preprocess_data t sel).length) :
    ((preprocess_data t sel).map (fun r => r.newCasesMA)).getD i none
      = rollingMean7 (diffFillClip ((groupByDate (filteredRows t sel)).map (fun r => r.confirmed))) i := by
  rw [List.getD_eq_getElem _ _ (by simpa using h), List.getElem_map,
    getElem_preprocess t sel i h]

theorem getD_map_newDeathsMA (t : List CleanRow) (sel : String) (i : ℕ)
    (h : i < (preprocess_data t sel).length) :
    ((preprocess_data t sel).map (fun r => r.newDeathsMA)).getD i none
      = rollingMean7 (diffFillClip ((groupByDate (filteredRows t sel)).map (fun r => r.deaths))) i := by
  rw [List.getD_eq_getElem _ _ (by simpa using h), List.getElem_map,
    getElem_preprocess t sel i h]

theorem getD_map_newRecoveriesMA (t : List CleanRow) (sel : String) (i : ℕ)
    (h : i < (preprocess_data t sel).length) :
    ((preprocess_data t sel).map (fun r => r.newRecoveriesMA)).getD i none
      = rollingMean7 (diffFillClip ((groupByDate (filteredRows t sel)).map (fun r => r.cured))) i := by
  rw [List.getD_eq_getElem _ _ (by simpa using h), List.getElem_map,
    getElem_preprocess t sel i h]

theorem map_getD_last {s : List SeriesRow} (hne : s ≠ []) (f : SeriesRow → ℤ) :
    (s.map f).getD (s.length - 1) 0 = f (s.getLast hne) := by
  have hl : 0 < s.length := List.length_pos.mpr hne
  rw [List.getD_eq_getElem _ _ (by simp; omega), List.getElem_map,
    List.getLast_eq_getElem]

theorem seriesMax_map_of_adjacent {s : List SeriesRow} (f : SeriesRow → ℤ)
    (hne : s ≠ [])
    (hadj : ∀ i, i + 1 < s.length →
      (s.map f).getD i 0 ≤ (s.map f).getD (i + 1) 0) :
    seriesMax (s.map f) = some (f (s.getLast hne)) := by
  have hne2 : s.map f ≠ [] := by simpa using hne
  have hlen : (s.map f).length = s.length := by simp
  have h := seriesMax_of_adjacent hne2
    (fun i hi => hadj i (by rwa [hlen] at hi))
  rw [h, hlen, map_getD_last hne f]

theorem fields_getElem_preprocess (t : List CleanRow) (sel : String) (i : ℕ)
    (h : i < (preprocess_data t sel).length)
    (hg : i < (groupByDate (filteredRows t sel)).length) :
    (preprocess_data t sel)[i].date
      = ((groupByDate (filteredRows t sel)).get ⟨i, hg⟩).date ∧
    (preprocess_data t sel)[i].confirmed
      = ((groupByDate (filteredRows t sel)).get ⟨i, hg⟩).confirmed ∧
    (preprocess_data t sel)[i].deaths
      = ((groupByDate (filteredRows t sel)).get ⟨i, hg⟩).deaths ∧
    (preprocess_data t sel)[i].cured
      = ((groupByDate (filteredRows t sel)).get ⟨i, hg⟩).cured := by
  rw [getElem_preprocess t sel i h]
  simp only [List.get_eq_getElem]
  refine ⟨?_, ?_, ?_, ?_⟩
  · rw [List.getD_eq_getElem _ _ hg]
  · rw [List.getD_eq_getElem _ _ (by simpa using hg), List.getElem_map]
  · rw [List.getD_eq_getElem _ _ (by simpa using hg), List.getElem_map]
  · rw [List.getD_eq_getElem _ _ (by simpa using hg), List.getElem_map]

/-! Verified properties of the pipeline. -/

/-- C10: for every cleaned table and region filter, the aggregation step
leaves the input table unchanged — in the explicit frame-passing model of
`preprocess_data`, the `cases_df` frame returned to the caller is exactly
the input table, while the derived series is built in the fresh
`state_data` frame. -/
theorem c10_input_frame_unchanged (t : List CleanRow) (sel : String) :
    (preprocess_data_frames t sel).cases_df = t ∧
    (preprocess_data_frames t sel).state_data = preprocess_data t sel :=
  ⟨rfl, rfl⟩

/-- C5: for every non-empty derived series, the first row has all three
new_* fields equal to 0, regardless of the first row's cumulative
values. -/
theorem c5_first_row_zero_delta (t : List CleanRow) (sel : String)
    (h : preprocess_data t sel ≠ []) :
    ((preprocess_data t sel).map (fun r => r.newCases)).getD 0 0 = 0 ∧
    ((preprocess_data t sel).map (fun r => r.newDeaths)).getD 0 0 = 0 ∧
    ((preprocess_data t sel).map (fun r => r.newRecoveries)).getD 0 0 = 0 := by
  have hlen : 0 < (groupByDate (filteredRows t sel)).length := by
    rw [← length_preprocess]
    exact List.length_pos.mpr h
  refine ⟨?_, ?_, ?_⟩
  · rw [map_newCases_preprocess, diffFillClip_getD _ 0 (by simpa using hlen)]
    simp
  · rw [map_newDeaths_preprocess, diffFillClip_getD _ 0 (by simpa using hlen)]
    simp
  · rw [map_newRecoveries_preprocess, diffFillClip_getD _ 0 (by simpa using hlen)]
    simp

/-- Witness for C5 at a concrete table. -/
theorem c5_first_row_zero_delta_witness :
    preprocess_data exampleAB "All India" ≠ [] ∧
    ((preprocess_data exampleAB "All India").map (fun r => r.newCases)).getD 0 0 = 0 :=
  ⟨by decide, (c5_first_row_zero_delta exampleAB "All India" (by decide)).1⟩

/-- C4: for every derived series, each daily delta at row index i > 0
equals the difference of consecutive cumulative values floored at zero,
and every delta field of every row is non-negative. -/
theorem c4_delta_clipped_nonneg (t : List CleanRow) (sel : String) :
    (∀ i, 0 < i → i < (preprocess_data t sel).length →
      ((preprocess_data t sel).map (fun r => r.newCases)).getD i 0
        = max 0 (((preprocess_data t sel).map (fun r => r.confirmed)).getD i 0
            - ((preprocess_data t sel).map (fun r => r.confirmed)).getD (i - 1) 0) ∧
      ((preprocess_data t sel).map (fun r => r.newDeaths)).getD i 0
        = max 0 (((preprocess_data t sel).map (fun r => r.deaths)).getD i 0
            - ((preprocess_data t sel).map (fun r => r.deaths)).getD (i - 1) 0) ∧
      ((preprocess_data t sel).map (fun r => r.newRecoveries)).getD i 0
        = max 0 (((preprocess_data t sel).map (fun r => r.cured)).getD i 0
            - ((preprocess_data t sel).map (fun r => r.cured)).getD (i - 1) 0)) ∧
    (∀ row ∈ preprocess_data t sel,
      0 ≤ row.newCases ∧ 0 ≤ row.newDeaths ∧ 0 ≤ row.newRecoveries) := by
  constructor
  · intro i hi hlen
    have hg : i < (groupByDate (filteredRows t sel)).length := by
      rwa [length_preprocess] at hlen
    refine ⟨?_, ?_, ?_⟩
    · rw [map_newCases_preprocess, map_confirmed_preprocess,
        diffFillClip_getD _ i (by simpa using hg), if_neg (by omega)]
    · rw [map_newDeaths_preprocess, map_deaths_preprocess,
        diffFillClip_getD _ i (by simpa using hg), if_neg (by omega)]
    · rw [map_newRecoveries_preprocess, map_cured_preprocess,
        diffFillClip_getD _ i (by simpa using hg), if_neg (by omega)]
  · intro row hrow
    obtain ⟨i, hi, rfl⟩ := List.getElem_of_mem hrow
    rw [getElem_preprocess t sel i hi]
    exact ⟨diffFillClip_getD_nonneg _ i, diffFillClip_getD_nonneg _ i,
      diffFillClip_getD_nonneg _ i⟩

/-- Witness for C4 at a concrete table and row index. -/
theorem c4_delta_clipped_nonneg_witness :
    ((preprocess_data exampleAB "All India").map (fun r => r.newCases)).getD 1 0
      = max 0 (35 - 15) ∧
    (0 : ℤ) ≤ ((preprocess_data exampleAB "All India").map (fun r => r.newCases)).getD 1 0 := by
  have h := (c4_delta_clipped_nonneg exampleAB "All India").1 1 (by omega) (by decide)
  have hc1 : ((preprocess_data exampleAB "All India").map (fun r => r.confirmed)).getD 1 0 = 35 := by
    decide
  have hc0 : ((preprocess_data exampleAB "All India").map (fun r => r.confirmed)).getD (1 - 1) 0 = 15 := by
    decide
  constructor
  · rw [h.1, hc1, hc0]
  · rw [h.1, hc1, hc0]
    decide

/-- C8: a region label (other than All India) matching no row of the
cleaned table yields an empty derived series rather than an error, and
every downstream summary metric on that empty series is defined (`none`,
the embedding of pandas NaN) rather than raising. -/
theorem c8_unknown_region (t : List CleanRow) (sel : String)
    (hsel : sel ≠ "All India") (hnone : ∀ r ∈ t, r.region ≠ sel) :
    preprocess_data t sel = [] ∧
    totalCases (preprocess_data t sel) = none ∧
    totalDeaths (preprocess_data t sel) = none ∧
    totalRecoveries (preprocess_data t sel) = none ∧
    activeCases (preprocess_data t sel) = none ∧
    latestRows (preprocess_data t sel) = [] := by
  have hf : filteredRows t sel = [] := by
    unfold filteredRows
    rw [if_neg hsel]
    rw [List.filter_eq_nil_iff]
    intro a ha
    simpa using hnone a ha
  have hs : preprocess_data t sel = [] := by
    have hlen : (preprocess_data t sel).length = 0 := by
      rw [length_preprocess, hf]
      simp [groupByDate, distinctDates]
    exact List.length_eq_zero.mp hlen
  rw [hs]
  exact ⟨rfl, rfl, rfl, rfl, rfl, rfl⟩

/-- Witness for C8 at a concrete table and unmatched region label. -/
theorem c8_unknown_region_witness :
    ("Nonexistent" : String) ≠ "All India" ∧
    (∀ r ∈ exampleAB, r.region ≠ "Nonexistent") ∧
    preprocess_data exampleAB "Nonexistent" = [] ∧
    activeCases (preprocess_data exampleAB "Nonexistent") = none := by
  have h := c8_unknown_region exampleAB "Nonexistent" (by decide) (by decide)
  exact ⟨by decide, by decide, h.1, h.2.2.2.2.1⟩

/-- C9: when any input date fails to parse, `load_data` fails fast with
`MalformedDateError`; and a successful load implies every input row's
date parsed (no row is silently dropped and no unparsed date survives). -/
theorem c9_malformed_date (raw : List RawRow) :
    ((∃ r ∈ raw, r.date = none) →
      load_data raw = Except.error MalformedDateError.mk) ∧
    (∀ t, load_data raw = Except.ok t → ∀ r ∈ raw, r.date.isSome) := by
  constructor
  · rintro ⟨r, hr, hnone⟩
    unfold load_data
    rw [if_neg]
    intro hall
    rw [List.all_eq_true] at hall
    have := hall r hr
    rw [hnone] at this
    simp at this
  · intro t ht r hr
    unfold load_data at ht
    by_cases hall : raw.all (fun r => r.date.isSome)
    · have := List.all_eq_true.mp hall r hr
      simpa using this
    · rw [if_neg hall] at ht
      cases ht

/-- Witness for C9 at a concrete raw input with an unparsable date. -/
theorem c9_malformed_date_witness :
    (∃ r ∈ exampleBadDateRaw, r.date = none) ∧
    load_data exampleBadDateRaw = Except.error MalformedDateError.mk :=
  ⟨by decide, (c9_malformed_date exampleBadDateRaw).1 (by decide)⟩

/-- C2 counterexample: on a raw row whose Confirmed field carries the
numeric value -5, the loader succeeds and the cleaned confirmed counter
is -5, which is negative — so it is not true that every cleaned counter
value is non-negative. -/
theorem c2_counterexample :
    load_data exampleNegativeRaw
      = Except.ok [{ date := 0, region := "A", confirmed := -5, deaths := 0, cured := 0 }] ∧
    ¬ (∀ t, load_data exampleNegativeRaw = Except.ok t → ∀ r ∈ t, 0 ≤ r.confirmed) := by
  refine ⟨by decide, ?_⟩
  intro h
  have h2 := h [⟨0, "A", -5, 0, 0⟩] (by decide) ⟨0, "A", -5, 0, 0⟩ (by decide)
  exact absurd h2 (by decide)

/-- C2 (amended): the loader maps each counter field through
`cleanCounter`: every cleaned row's counters are the cleaned counters of
some raw input row, a missing or non-numeric value (`none`) becomes zero
without an error, and a cleaned counter is non-negative whenever the raw
numeric value is — but a negative numeric input value is kept unchanged
rather than clamped, so cleaned counters are integers, not necessarily
non-negative ones. -/
theorem c2_counter_cleaning (raw : List RawRow) (t : List CleanRow)
    (h : load_data raw = Except.ok t) :
    (∀ row ∈ t, ∃ r ∈ raw,
      row.confirmed = cleanCounter r.confirmed ∧
      row.deaths = cleanCounter r.deaths ∧
      row.cured = cleanCounter r.cured) ∧
    cleanCounter none = 0 ∧
    (∀ v : ℤ, cleanCounter (some v) = v) ∧
    (∀ o : Option ℤ, (∀ v, o = some v → 0 ≤ v) → 0 ≤ cleanCounter o) := by
  refine ⟨?_, rfl, fun v => rfl, ?_⟩
  · intro row hrow
    rw [load_data_ok raw t h] at hrow
    have h1 : row ∈ dedupKeepLast (raw.map cleanRow) := mem_sortByDate.mp hrow
    have h2 : row ∈ raw.map cleanRow := mem_of_mem_dedupKeepLast h1
    obtain ⟨r, hr, rfl⟩ := List.mem_map.mp h2
    exact ⟨r, hr, rfl, rfl, rfl⟩
  · intro o ho
    cases o with
    | none => simp [cleanCounter]
    | some v => simpa [cleanCounter] using ho v rfl

/-- Witness for the amended C2 at a concrete raw input. -/
theorem c2_counter_cleaning_witness :
    load_data exampleDupRaw = Except.ok [⟨0, "A", 4, 5, 6⟩] ∧
    (∀ row ∈ [(⟨0, "A", 4, 5, 6⟩ : CleanRow)], ∃ r ∈ exampleDupRaw,
      row.confirmed = cleanCounter r.confirmed ∧
      row.deaths = cleanCounter r.deaths ∧
      row.cured = cleanCounter r.cured) :=
  ⟨by decide, (c2_counter_cleaning exampleDupRaw _ (by decide)).1⟩

/-- C7: when several raw rows share the same (date, region) key, the
cleaned table contains exactly one row with that key, namely the cleaned
image of the last such row in the original input order. -/
theorem c7_dedup_keep_last (raw : List RawRow) (t : List CleanRow)
    (h : load_data raw = Except.ok t) (k : ℤ × String) (x : CleanRow)
    (hx : ((raw.map cleanRow).filter (fun r => key r = k)).getLast? = some x) :
    t.filter (fun r => key r = k) = [x] := by
  rw [load_data_ok raw t h]
  have hperm : List.Perm
      ((sortByDate (dedupKeepLast (raw.map cleanRow))).filter (fun r => decide (key r = k)))
      ((dedupKeepLast (raw.map cleanRow)).filter (fun r => decide (key r = k))) :=
    (List.perm_insertionSort _ _).filter _
  rw [filter_dedupKeepLast, hx] at hperm
  exact List.perm_singleton.mp hperm

/-- Witness for C7 at a concrete raw input with a duplicated key. -/
theorem c7_dedup_keep_last_witness :
    load_data exampleDupRaw = Except.ok [⟨0, "A", 4, 5, 6⟩] ∧
    ((exampleDupRaw.map cleanRow).filter
        (fun r => key r = ((0 : ℤ), "A"))).getLast? = some ⟨0, "A", 4, 5, 6⟩ ∧
    ([(⟨0, "A", 4, 5, 6⟩ : CleanRow)].filter (fun r => key r = ((0 : ℤ), "A")))
      = [⟨0, "A", 4, 5, 6⟩] :=
  ⟨by decide, by decide,
    c7_dedup_keep_last exampleDupRaw _ (by decide) _ _ (by decide)⟩

/-- C6: for every derived series, the smoothed value at row index
i ≥ 6 equals the arithmetic mean of the 7 delta values at row indices
i-6 … i (by row index), at row indices 0–5 it is absent (`none`, never
zero); and on the table whose deltas are 0,1,…,9 the moving average at
row index 6 equals 3. -/
theorem c6_rolling_window (t : List CleanRow) (sel : String) :
    (∀ i, i < (preprocess_data t sel).length →
      (6 ≤ i →
        ((preprocess_data t sel).map (fun r => r.newCasesMA)).getD i none
          = some (((((List.range 7).map (fun k =>
              ((preprocess_data t sel).map (fun r => r.newCases)).getD (i - 6 + k) 0)).sum : ℤ) : ℚ) / 7) ∧
        ((preprocess_data t sel).map (fun r => r.newDeathsMA)).getD i none
          = some (((((List.range 7).map (fun k =>
              ((preprocess_data t sel).map (fun r => r.newDeaths)).getD (i - 6 + k) 0)).sum : ℤ) : ℚ) / 7) ∧
        ((preprocess_data t sel).map (fun r => r.newRecoveriesMA)).getD i none
          = some (((((List.range 7).map (fun k =>
              ((preprocess_data t sel).map (fun r => r.newRecoveries)).getD (i - 6 + k) 0)).sum : ℤ) : ℚ) / 7)) ∧
      (i < 6 →
        ((preprocess_data t sel).map (fun r => r.newCasesMA)).getD i none = none ∧
        ((preprocess_data t sel).map (fun r => r.newDeathsMA)).getD i none = none ∧
        ((preprocess_data t sel).map (fun r => r.newRecoveriesMA)).getD i none = none)) ∧
    (preprocess_data exampleDeltas "A").map (fun r => r.newCases)
      = [0, 1, 2, 3, 4, 5, 6, 7, 8, 9] ∧
    ((preprocess_data exampleDeltas "A").map (fun r => r.newCasesMA)).getD 6 none = some 3 ∧
    (∀ j, j < 6 →
      ((preprocess_data exampleDeltas "A").map (fun r => r.newCasesMA)).getD j none = none) := by
  have hlen10 : (preprocess_data exampleDeltas "A").length = 10 := by decide
  refine ⟨?_, by decide, ?_, ?_⟩
  · intro i hlen
    constructor
    · intro h6
      refine ⟨?_, ?_, ?_⟩
      · rw [getD_map_newCasesMA t sel i hlen, map_newCases_preprocess]
        unfold rollingMean7
        rw [if_neg (by omega)]
      · rw [getD_map_newDeathsMA t sel i hlen, map_newDeaths_preprocess]
        unfold rollingMean7
        rw [if_neg (by omega)]
      · rw [getD_map_newRecoveriesMA t sel i hlen, map_newRecoveries_preprocess]
        unfold rollingMean7
        rw [if_neg (by omega)]
    · intro h6
      refine ⟨?_, ?_, ?_⟩
      · rw [getD_map_newCasesMA t sel i hlen]
        unfold rollingMean7
        rw [if_pos h6]
      · rw [getD_map_newDeathsMA t sel i hlen]
        unfold rollingMean7
        rw [if_pos h6]
      · rw [getD_map_newRecoveriesMA t sel i hlen]
        unfold rollingMean7
        rw [if_pos h6]
  · rw [getD_map_newCasesMA exampleDeltas "A" 6 (by rw [hlen10]; omega)]
    have hnc : diffFillClip ((groupByDate (filteredRows exampleDeltas "A")).map
        (fun r => r.confirmed)) = [0, 1, 2, 3, 4, 5, 6, 7, 8, 9] := by
      decide
    have h7 : (List.range 7) = [0, 1, 2, 3, 4, 5, 6] := by decide
    rw [hnc]
    simp only [rollingMean7, h7]
    norm_num
  · intro j hj
    rw [getD_map_newCasesMA exampleDeltas "A" j (by rw [hlen10]; omega)]
    unfold rollingMean7
    rw [if_pos hj]

/-- Witness for C6 at a concrete table and row index. -/
theorem c6_rolling_window_witness :
    6 < (preprocess_data exampleDeltas "A").length ∧
    ((preprocess_data exampleDeltas "A").map (fun r => r.newCasesMA)).getD 6 none
      = some (((((List.range 7).map (fun k =>
          ((preprocess_data exampleDeltas "A").map (fun r => r.newCases)).getD (6 - 6 + k) 0)).sum : ℤ) : ℚ) / 7) :=
  ⟨by decide, (((c6_rolling_window exampleDeltas "A").1 6 (by decide)).1 (by omega)).1⟩

/-- C3: filtering with All India produces one row per distinct input
date, sorted strictly ascending by date, whose counters are the sums of
the corresponding counters over all rows (all regions) of that date; on
the two-region example, All India yields confirmed 15, 35 and region A
yields confirmed 10, 20. -/
theorem c3_aggregation_all_india (t : List CleanRow) :
    (((preprocess_data t "All India").map (fun r => r.date)).Pairwise (· < ·) ∧
     (∀ d : ℤ, d ∈ (preprocess_data t "All India").map (fun r => r.date)
        ↔ d ∈ t.map (fun r => r.date)) ∧
     (∀ row ∈ preprocess_data t "All India",
        row.confirmed = ((t.filter (fun r => r.date = row.date)).map (fun r => r.confirmed)).sum ∧
        row.deaths = ((t.filter (fun r => r.date = row.date)).map (fun r => r.deaths)).sum ∧
        row.cured = ((t.filter (fun r => r.date = row.date)).map (fun r => r.cured)).sum)) ∧
    (preprocess_data exampleAB "All India").map (fun r => r.confirmed) = [15, 35] ∧
    (preprocess_data exampleAB "A").map (fun r => r.confirmed) = [10, 20] := by
  have hfilt : filteredRows t "All India" = t := by
    simp [filteredRows]
  refine ⟨⟨?_, ?_, ?_⟩, by decide, by decide⟩
  · rw [map_date_preprocess, hfilt]
    exact sorted_distinctDates t
  · intro d
    rw [map_date_preprocess, hfilt]
    exact mem_distinctDates t d
  · intro row hrow
    obtain ⟨i, hi, rfl⟩ := List.getElem_of_mem hrow
    have hg : i < (groupByDate (filteredRows t "All India")).length := by
      rwa [length_preprocess] at hi
    obtain ⟨hdate, hconf, hdea, hcur⟩ := fields_getElem_preprocess t "All India" i hi hg
    set a := (groupByDate (filteredRows t "All India")).get ⟨i, hg⟩ with ha
    have hmem : a ∈ groupByDate (filteredRows t "All India") := by
      rw [ha]
      exact List.get_mem (groupByDate (filteredRows t "All India")) i hg
    have hsum := mem_groupByDate hmem
    rw [hfilt] at hsum
    simp only [hconf, hdea, hcur, hdate]
    exact hsum

/-- Witness for C3 at a concrete table and row. -/
theorem c3_aggregation_all_india_witness :
    (⟨1, 35, 0, 0, 20, 0, 0, none, none, none⟩ : SeriesRow) ∈ preprocess_data exampleAB "All India" ∧
    (35 : ℤ) = ((exampleAB.filter (fun r => r.date = 1)).map (fun r => r.confirmed)).sum := by
  have hmem : (⟨1, 35, 0, 0, 20, 0, 0, none, none, none⟩ : SeriesRow)
      ∈ preprocess_data exampleAB "All India" := by decide
  have h := ((c3_aggregation_all_india exampleAB).1.2.2 _ hmem).1
  exact ⟨hmem, by simpa using h⟩

/-- C1 counterexample: on a table whose cumulative confirmed column
regresses from 10 to 5, the series row at the most recent date has
confirmed 5, yet the Total Cases metric is 10 — the metric is the
column-wise maximum, not the latest row's value. -/
theorem c1_counterexample :
    latestRows (preprocess_data exampleRegress "All India")
      = [⟨1, 5, 0, 0, 0, 0, 0, none, none, none⟩] ∧
    totalCases (preprocess_data exampleRegress "All India") = some 10 ∧
    totalCases (preprocess_data exampleRegress "All India") ≠ some 5 :=
  ⟨by decide, by decide, by decide⟩

/-- C1 (amended): each summary metric is the maximum of its cumulative
column over the derived series; when every cumulative column is
non-decreasing along the series (the intended, monotone case), the four
metrics coincide with the most recent date's row: total confirmed,
deaths and cured are that row's values, active is confirmed − cured −
deaths of that same row, and the latest-date snapshot is exactly that
row. -/
theorem c1_metrics_latest_of_monotone (t : List CleanRow) (sel : String)
    (hne : preprocess_data t sel ≠ [])
    (hc : ∀ i, i + 1 < (preprocess_data t sel).length →
      ((preprocess_data t sel).map (fun r => r.confirmed)).getD i 0
        ≤ ((preprocess_data t sel).map (fun r => r.confirmed)).getD (i + 1) 0)
    (hd : ∀ i, i + 1 < (preprocess_data t sel).length →
      ((preprocess_data t sel).map (fun r => r.deaths)).getD i 0
        ≤ ((preprocess_data t sel).map (fun r => r.deaths)).getD (i + 1) 0)
    (hr : ∀ i, i + 1 < (preprocess_data t sel).length →
      ((preprocess_data t sel).map (fun r => r.cured)).getD i 0
        ≤ ((preprocess_data t sel).map (fun r => r.cured)).getD (i + 1) 0) :
    totalCases (preprocess_data t sel)
      = some (((preprocess_data t sel).getLast hne).confirmed) ∧
    totalDeaths (preprocess_data t sel)
      = some (((preprocess_data t sel).getLast hne).deaths) ∧
    totalRecoveries (preprocess_data t sel)
      = some (((preprocess_data t sel).getLast hne).cured) ∧
    activeCases (preprocess_data t sel)
      = some (((preprocess_data t sel).getLast hne).confirmed
          - ((preprocess_data t sel).getLast hne).cured
          - ((preprocess_data t sel).getLast hne).deaths) ∧
    latestRows (preprocess_data t sel) = [(preprocess_data t sel).getLast hne] := by
  have h1 := seriesMax_map_of_adjacent (fun r => r.confirmed) hne hc
  have h2 := seriesMax_map_of_adjacent (fun r => r.deaths) hne hd
  have h3 := seriesMax_map_of_adjacent (fun r => r.cured) hne hr
  have hpw : ((preprocess_data t sel).map (fun r => r.date)).Pairwise (· < ·) := by
    rw [map_date_preprocess]
    exact sorted_distinctDates _
  refine ⟨h1, h2, h3, ?_, latestRows_eq_getLast hne hpw⟩
  unfold activeCases totalCases totalRecoveries totalDeaths
  rw [h1, h2, h3]

/-- Witness for the amended C1 at a concrete monotone table. -/
theorem c1_metrics_latest_of_monotone_witness :
    preprocess_data exampleAB "All India" ≠ [] ∧
    totalCases (preprocess_data exampleAB "All India") = some 35 ∧
    activeCases (preprocess_data exampleAB "All India") = some 35 ∧
    latestRows (preprocess_data exampleAB "All India")
      = [⟨1, 35, 0, 0, 20, 0, 0, none, none, none⟩] := by
  have hne : preprocess_data exampleAB "All India" ≠ [] := by decide
  have hlen : (preprocess_data exampleAB "All India").length = 2 := by decide
  have hlast : (preprocess_data exampleAB "All India").getLast hne
      = ⟨1, 35, 0, 0, 20, 0, 0, none, none, none⟩ := by
    have h0 : (preprocess_data exampleAB "All India").getLast?
        = some (⟨1, 35, 0, 0, 20, 0, 0, none, none, none⟩ : SeriesRow) := by decide
    rw [List.getLast?_eq_getLast _ hne] at h0
    exact Option.some.inj h0
  have h := c1_metrics_latest_of_monotone exampleAB "All India" hne
    (fun i hi => by
      rw [hlen] at hi
      have hi0 : i = 0 := by omega
      subst hi0
      decide)
    (fun i hi => by
      rw [hlen] at hi
      have hi0 : i = 0 := by omega
      subst hi0
      decide)
    (fun i hi => by
      rw [hlen] at hi
      have hi0 : i = 0 := by omega
      subst hi0
      decide)
  refine ⟨hne, ?_, ?_, ?_⟩
  · rw [h.1, hlast]
  · rw [h.2.2.2.1, hlast]
    decide
  · rw [h.2.2.2.2, hlast]

end Covid
